import Mathlib

/-!
Shallow embedding of the particle simulation engine of the vector-fields
repository (src/main.rs).

Modelling conventions:
* f32 values are modelled by exact rationals.  Decimal f32 literals from the
  source are written as the corresponding rational (0.01 becomes 1/100).
* The three transcendental primitives of the source that have no exact
  rational value are passed as explicit function parameters everywhere they
  occur: `expv i` models the f32 value of exp(-i) used inside the field
  function, `nrm z` models the f32 complex norm (square root), and `sg x`
  models the sigmoid function.  All theorems quantify over them, so nothing
  proved depends on their numeric values.
* The deterministic PRNG stream (rand StdRng seeded with seed_from_u64) is
  modelled by a parameter `gen : seed -> draw index -> rational`, reflecting
  that every draw is a pure function of the 64-bit seed and of the position
  of the draw in the stream.  Draw indices follow the exact call order of
  the source (0, 1: position; 2, 3: color channels; 4: background override;
  5: lifetime; 6: age).
* Machine integers are Nat; the u64 seed is built with shiftLeft, or, xor
  exactly as in the source, and stays below 2^64 for u32-ranged inputs.
* The worker-pool scheduler is modelled by the sequential composition of its
  per-chunk results (chunk k covers indices [k*TASK_SIZE, k*TASK_SIZE +
  TASK_SIZE) of the particle list); the merge order into the shared buffer
  is irrelevant to every size and membership property proved below.
* The rational model has no NaN; the float special values needed by the
  divergence guard are modelled separately by the small IEEE-style type
  `FVal` further down.
* The constant LOOP_FRAMES is 1 in the committed source but is the
  configurable loop length of the design, so it is a parameter `L` here.
-/

/-- Number of units between the two nearest edges of the window. -/
def SCALE : ℚ := 5

/-- Real coordinate of the window center. -/
def DX : ℚ := -15/4

/-- Imaginary coordinate of the window center. -/
def DY : ℚ := 0

/-- Maximum time that a particle may live for, in frames. -/
def PARTICLE_LIFETIME : ℚ := 160

/-- Speed of the simulation. -/
def EPSILON : ℚ := 1/100

/-- Number of substeps of the simulation. -/
def SUBSTEPS : ℕ := 6

/-- Number of particles to spawn each frame. -/
def PARTICLES_PER_FRAME : ℕ := 1000

/-- Width of the window in pixels. -/
def WIDTH : ℕ := 1920

/-- Height of the window in pixels. -/
def HEIGHT : ℕ := 1080

/-- Number of particles in each task batch. -/
def TASK_SIZE : ℕ := 512

/-- Complex numbers over the rational model of f32: a real and an
imaginary part, mirroring num Complex of f32. -/
structure CQ where
  re : ℚ
  im : ℚ
deriving DecidableEq, Repr

/-- Componentwise complex addition. -/
def CQ.add (a b : CQ) : CQ := ⟨a.re + b.re, a.im + b.im⟩

instance instCQAdd : Add CQ := ⟨CQ.add⟩

/-- Complex multiplication, the formula used by num Complex mul. -/
def CQ.mul (a b : CQ) : CQ :=
  ⟨a.re * b.re - a.im * b.im, a.re * b.im + a.im * b.re⟩

instance instCQMul : Mul CQ := ⟨CQ.mul⟩

/-- Scaling a complex number by a real scalar (Complex times f32). -/
def CQ.smul (a : CQ) (s : ℚ) : CQ := ⟨a.re * s, a.im * s⟩

/-- Dividing a complex number by a real scalar (Complex divided by f32,
componentwise).  Rational division by zero yields zero, whereas f32 would
yield a non-finite value; the non-finite behaviour is treated by the FVal
development below. -/
def CQ.divScalar (a : CQ) (s : ℚ) : CQ := ⟨a.re / s, a.im / s⟩

/-- Integer power of a complex number.  num powi computes the same product
by binary exponentiation; over exact rationals every association of the
product is equal, so plain recursion is a faithful model. -/
def CQ.pow (a : CQ) : ℕ → CQ
  | 0 => ⟨1, 0⟩
  | k + 1 => a * CQ.pow a k

/-- Embedding of a real scalar as a complex number, mirroring
Complex new with zero imaginary part. -/
def CQ.ofReal (q : ℚ) : CQ := ⟨q, 0⟩

/-- Squared magnitude, mirroring num norm_sqr: re*re + im*im. -/
def CQ.normSq (a : CQ) : ℚ := a.re * a.re + a.im * a.im

/-- The complex function from which the vector field is derived: starting
from x, accumulate x += x^i * exp(-i) for i from 2 to 11.  The time
parameter is accepted but unused, exactly as in the source.  `expv i`
models the f32 value of exp(-i). -/
def f (expv : ℕ → ℚ) (_t : ℕ) (x0 : CQ) : CQ :=
  (List.range' 2 10).foldl (fun x i => x + x.pow i * CQ.ofReal (expv i)) x0

/-- RGBA color, mirroring tetra Color. -/
structure Color where
  r : ℚ
  g : ℚ
  b : ℚ
  a : ℚ
deriving DecidableEq, Repr

/-- Color constructor with full alpha, mirroring Color rgb. -/
def Color.rgb (r g b : ℚ) : Color := ⟨r, g, b, 1⟩

/-- A single particle: color, current position, position at the last render,
lifetime, age and the updated flag. -/
structure Particle where
  color : Color
  position : CQ
  old_position : CQ
  lifetime : ℚ
  age : ℚ
  updated : Bool
deriving DecidableEq, Repr

/-- The 64-bit seed key: the effective frame index (reduced modulo the loop
length L when L > 1) is shifted into the high 32 bits, the slot index n
fills the low 32 bits, and the packed word is XORed with the fixed
nothing-up-my-sleeve constant. -/
def seedKey (L t n : ℕ) : ℕ :=
  (((if 1 < L then t % L else t) <<< 32) ||| n) ^^^ 0xCBF52D44320FD62A

/-- Creates a new particle from the given timestep t and particle ID n,
mirroring Particle new in the source.  The PRNG draws are `gen seed i` in
source call order. -/
def Particle.new (gen : ℕ → ℕ → ℚ) (expv : ℕ → ℚ) (nrm : CQ → ℚ)
    (sg : ℚ → ℚ) (L t n : ℕ) : Particle :=
  let t2 := if 1 < L then t % L else t
  let seed := seedKey L t n
  let position : CQ :=
    ⟨(gen seed 0 * 3 - 3/2) * SCALE * ((Nat.max WIDTH HEIGHT : ℕ) : ℚ) / (WIDTH : ℚ) + DX,
     (gen seed 1 * 3 - 3/2) * SCALE * ((Nat.max WIDTH HEIGHT : ℕ) : ℚ) / (HEIGHT : ℚ) + DY⟩
  let p := f expv t2 position
  let color0 := Color.rgb (4/5 + 1/5 * gen seed 2 * sg (nrm p))
                          (9/20 + 1/5 * gen seed 3 * sg (-p.im)) (23/100)
  let color := if gen seed 4 < 3/10 then Color.rgb (2/25) (17/200) (3/25) else color0
  let lifetime := gen seed 5 * PARTICLE_LIFETIME
  { color := color
    old_position := position
    position := position
    lifetime := lifetime
    age := gen seed 6 * lifetime
    updated := false }

/-- One per-particle integration step of update_particles: set updated,
increment age by 1, then for each of the SUBSTEPS substeps evaluate the
field at the current position, divide the value by its norm and advance
the position by that direction times EPSILON / SUBSTEPS. -/
def integrate (expv : ℕ → ℚ) (nrm : CQ → ℚ) (t : ℕ) (p0 : Particle) : Particle :=
  let p1 := { p0 with updated := true, age := p0.age + 1 }
  let pos := (List.range SUBSTEPS).foldl
    (fun pos _ =>
      let z := f expv t pos
      let z2 := z.divScalar (nrm z)
      pos + z2.smul (EPSILON / (SUBSTEPS : ℚ))) p1.position
  { p1 with position := pos }

/-- The survival test applied to an integrated particle: it is kept unless
its age reached its lifetime or the squared magnitude of the field at its
new position reached 4 * SCALE^2.  The is_nan disjunct of the source is
identically false in the rational model (no NaN exists here); NaN behaviour
is covered by the FVal development below. -/
def surviveTest (expv : ℕ → ℚ) (t : ℕ) (p : Particle) : Bool :=
  !(decide (p.lifetime ≤ p.age) ||
    decide (4 * SCALE * SCALE ≤ (f expv t p.position).normSq))

/-- The result of task batch k: the particles of chunk
[k*TASK_SIZE, k*TASK_SIZE + TASK_SIZE) are integrated and the survivors
are collected, exactly as worker k of update_particles builds its local
task buffer. -/
def taskResult (expv : ℕ → ℚ) (nrm : CQ → ℚ) (t : ℕ) (ps : List Particle)
    (k : ℕ) : List Particle :=
  (((ps.drop (k * TASK_SIZE)).take TASK_SIZE).map (integrate expv nrm t)).filter
    (surviveTest expv t)

/-- The merged result buffer of one scheduler pass: only the first
ps.length / TASK_SIZE full chunks are scheduled (the trailing partial chunk
is never dispatched), and their task buffers are appended.  The scheduler
merges in nondeterministic order; a canonical order is used here, which is
irrelevant to every size and membership property proved below. -/
def batchSurvivors (expv : ℕ → ℚ) (nrm : CQ → ℚ) (t : ℕ)
    (ps : List Particle) : List Particle :=
  (List.range (ps.length / TASK_SIZE)).flatMap (taskResult expv nrm t ps)

/-- One full update_particles step: the particle collection is replaced by
the merged survivors, then PARTICLES_PER_FRAME newcomers seeded at
(t, 0), ..., (t, PARTICLES_PER_FRAME - 1) are appended. -/
def update_particles (gen : ℕ → ℕ → ℚ) (expv : ℕ → ℚ) (nrm : CQ → ℚ)
    (sg : ℚ → ℚ) (L t : ℕ) (ps : List Particle) : List Particle :=
  batchSurvivors expv nrm t ps ++
    (List.range PARTICLES_PER_FRAME).map (fun n => Particle.new gen expv nrm sg L t n)

/-- The subset of particles the renderer draws: the draw loop of the source
skips every particle whose updated flag is false. -/
def drawn (ps : List Particle) : List Particle :=
  ps.filter (fun p => p.updated)

/-- The condition under which draw sends the finished pixel buffer to the
frame sink: saving must be enabled, and when the loop length exceeds 1 the
frame counter must lie in [LOOP_FRAMES, 2*LOOP_FRAMES). -/
def should_send (saving : Bool) (L t : ℕ) : Bool :=
  saving && (if L ≤ 1 then true else decide (L ≤ t) && decide (t < 2 * L))

/-- The condition under which update quits the driving process: loop mode
is active and the frame counter passed 2*LOOP_FRAMES. -/
def should_quit (L t : ℕ) : Bool :=
  decide (1 < L) && decide (2 * L < t)

/-- An f32 value for the divergence-guard analysis: either an exact finite
value, one of the two infinities, or NaN. -/
inductive FVal where
  | fin (q : ℚ)
  | inf
  | neginf
  | nan
deriving DecidableEq, Repr

/-- Whether an FVal is NaN, mirroring f32 is_nan. -/
def FVal.isNan : FVal → Bool
  | .nan => true
  | _ => false

/-- Whether an FVal is finite, mirroring f32 is_finite. -/
def FVal.isFinite : FVal → Bool
  | .fin _ => true
  | _ => false

/-- IEEE multiplication on FVal: NaN propagates, infinity times zero is
NaN, infinity times a nonzero value carries the sign product. -/
def FVal.mul : FVal → FVal → FVal
  | .nan, _ => .nan
  | _, .nan => .nan
  | .inf, .inf => .inf
  | .inf, .neginf => .neginf
  | .neginf, .inf => .neginf
  | .neginf, .neginf => .inf
  | .inf, .fin q => if 0 < q then .inf else if q < 0 then .neginf else .nan
  | .fin q, .inf => if 0 < q then .inf else if q < 0 then .neginf else .nan
  | .neginf, .fin q => if 0 < q then .neginf else if q < 0 then .inf else .nan
  | .fin q, .neginf => if 0 < q then .neginf else if q < 0 then .inf else .nan
  | .fin a, .fin b => .fin (a * b)

/-- IEEE addition on FVal: NaN propagates, opposite infinities give NaN,
an infinity absorbs finite summands. -/
def FVal.add : FVal → FVal → FVal
  | .nan, _ => .nan
  | _, .nan => .nan
  | .inf, .neginf => .nan
  | .neginf, .inf => .nan
  | .inf, _ => .inf
  | _, .inf => .inf
  | .neginf, _ => .neginf
  | _, .neginf => .neginf
  | .fin a, .fin b => .fin (a + b)

/-- IEEE greater-or-equal on FVal: any comparison with NaN is false,
positive infinity dominates, negative infinity is below everything. -/
def FVal.fge : FVal → FVal → Bool
  | .nan, _ => false
  | _, .nan => false
  | .inf, _ => true
  | .neginf, .neginf => true
  | .neginf, _ => false
  | .fin _, .inf => false
  | .fin _, .neginf => true
  | .fin a, .fin b => decide (b ≤ a)

/-- Squared magnitude of a complex value with f32 special values,
mirroring num norm_sqr: re*re + im*im computed with IEEE semantics. -/
def norm_sqrF (re im : FVal) : FVal :=
  (re.mul re).add (im.mul im)

/-- The retirement test of update_particles with the squared field
magnitude d carried as an FVal, so that the d >= 4*SCALE^2 comparison and
the is_nan test keep their IEEE behaviour on non-finite d.  The particle
survives exactly when the test of the source is false. -/
def surviveTestF (age lifetime : ℚ) (d : FVal) : Bool :=
  !(decide (lifetime ≤ age) || d.fge (.fin (4 * SCALE * SCALE)) || d.isNan)

/-- Concrete PRNG model whose every draw is zero, used to evaluate the
development at explicit inputs. -/
def gen0 : ℕ → ℕ → ℚ := fun _ _ => 0

/-- Concrete model of the exp(-i) table in which every entry is zero; it
makes the field function the identity. -/
def eF0 : ℕ → ℚ := fun _ => 0

/-- Concrete model of the complex norm that returns one everywhere. -/
def nrm1 : CQ → ℚ := fun _ => 1

/-- Concrete model of the sigmoid that returns zero everywhere. -/
def sg0 : ℚ → ℚ := fun _ => 0

/-- A concrete particle sitting at the origin with lifetime 10 and age 0,
used to evaluate the development at explicit inputs. -/
def pz : Particle :=
  { color := Color.rgb (1/2) (1/2) (1/2)
    position := ⟨0, 0⟩
    old_position := ⟨0, 0⟩
    lifetime := 10
    age := 0
    updated := false }

/-- Unfolding equation for complex addition. -/
theorem CQ.add_def (a b : CQ) : a + b = ⟨a.re + b.re, a.im + b.im⟩ := rfl

/-- Unfolding equation for complex multiplication. -/
theorem CQ.mul_def (a b : CQ) :
    a * b = ⟨a.re * b.re - a.im * b.im, a.re * b.im + a.im * b.re⟩ := rfl

/-- Multiplying a complex value by the real scalar zero yields zero. -/
theorem CQ.mul_ofReal_zero (a : CQ) : a * CQ.ofReal 0 = ⟨0, 0⟩ := by
  simp [CQ.mul_def, CQ.ofReal]

/-- Adding complex zero on the right is the identity. -/
theorem CQ.add_zero_right (a : CQ) : a + (⟨0, 0⟩ : CQ) = a := by
  cases a
  simp [CQ.add_def]

/-- With the all-zero exp table, every accumulation term of the field
function vanishes and the field is the identity map. -/
theorem f_eF0_id (t : ℕ) (x : CQ) : f eF0 t x = x := by
  simp [f, eF0, List.range', CQ.mul_ofReal_zero, CQ.add_zero_right]

/-- Integrating the origin particle pz under the all-zero exp table only
ticks its age and its updated flag: the position stays at the origin. -/
theorem integrate_pz_eq (t : ℕ) :
    integrate eF0 nrm1 t pz = { pz with age := pz.age + 1, updated := true } := by
  have hr : List.range SUBSTEPS = [0, 1, 2, 3, 4, 5] := rfl
  simp [integrate, hr, f_eF0_id, nrm1, CQ.divScalar, CQ.smul, CQ.add_def, pz]

/-- The integrated origin particle passes the survival test: its age is far
below its lifetime and the field magnitude at the origin is zero. -/
theorem surviveTest_integrate_pz (t : ℕ) :
    surviveTest eF0 t (integrate eF0 nrm1 t pz) = true := by
  rw [integrate_pz_eq]
  norm_num [surviveTest, f_eF0_id, CQ.normSq, pz, SCALE]

/-- A filter whose predicate holds at the replicated element keeps a
replicate list unchanged. -/
theorem filter_replicate_of_pos {α : Type} (p : α → Bool) (x : α)
    (h : p x = true) : ∀ n, (List.replicate n x).filter p = List.replicate n x := by
  intro n
  induction n with
  | zero => rfl
  | succ m ih => simp [List.replicate_succ, List.filter_cons, h, ih]

/-- One task batch keeps exactly TASK_SIZE particles when its chunk is a
full chunk and every particle of the collection survives integration. -/
theorem taskResult_length_of_full (expv : ℕ → ℚ) (nrm : CQ → ℚ) (t : ℕ)
    (ps : List Particle) (k : ℕ)
    (hall : ∀ p ∈ ps, surviveTest expv t (integrate expv nrm t p) = true)
    (hk : (k + 1) * TASK_SIZE ≤ ps.length) :
    (taskResult expv nrm t ps k).length = TASK_SIZE := by
  unfold taskResult
  rw [List.filter_eq_self.mpr]
  · rw [List.length_map, List.length_take, List.length_drop]
    simp only [TASK_SIZE] at hk ⊢
    omega
  · intro q hq
    rw [List.mem_map] at hq
    obtain ⟨p, hp, rfl⟩ := hq
    exact hall p (List.drop_subset _ _ (List.take_subset _ _ hp))

/-- When every particle of the collection survives integration, the merged
scheduler output holds exactly the particles of the scheduled full chunks:
floor(length / TASK_SIZE) * TASK_SIZE of them. -/
theorem batchSurvivors_length (expv : ℕ → ℚ) (nrm : CQ → ℚ) (t : ℕ)
    (ps : List Particle)
    (hall : ∀ p ∈ ps, surviveTest expv t (integrate expv nrm t p) = true) :
    (batchSurvivors expv nrm t ps).length = (ps.length / TASK_SIZE) * TASK_SIZE := by
  unfold batchSurvivors
  have key : ∀ m, m * TASK_SIZE ≤ ps.length →
      ((List.range m).flatMap (taskResult expv nrm t ps)).length = m * TASK_SIZE := by
    intro m
    induction m with
    | zero => intro _; simp
    | succ j ih =>
      intro hm
      have hj : j * TASK_SIZE ≤ ps.length :=
        le_trans (Nat.mul_le_mul_right _ (Nat.le_succ j)) hm
      rw [List.range_succ, List.flatMap_append, List.length_append, ih hj]
      have hone : ([j].flatMap (taskResult expv nrm t ps)).length =
          (taskResult expv nrm t ps j).length := by
        simp [List.flatMap_cons, List.flatMap_nil]
      rw [hone, taskResult_length_of_full expv nrm t ps j hall hm, Nat.succ_mul]
  exact key _ (Nat.div_mul_le_self _ _)

/-- The merged scheduler output of a collection of exactly TASK_SIZE copies
of one surviving particle is TASK_SIZE copies of its integrated image. -/
theorem batchSurvivors_replicate_full (expv : ℕ → ℚ) (nrm : CQ → ℚ) (t : ℕ)
    (x : Particle) (h : surviveTest expv t (integrate expv nrm t x) = true) :
    batchSurvivors expv nrm t (List.replicate TASK_SIZE x) =
      List.replicate TASK_SIZE (integrate expv nrm t x) := by
  unfold batchSurvivors taskResult
  rw [List.length_replicate]
  have h1 : TASK_SIZE / TASK_SIZE = 1 := by simp [TASK_SIZE]
  have hr : List.range 1 = [0] := rfl
  rw [h1, hr, List.flatMap_cons, List.flatMap_nil, List.append_nil]
  rw [Nat.zero_mul, List.drop_zero, List.take_replicate, min_self,
    List.map_replicate, filter_replicate_of_pos _ _ h]

/-- C1 as stated is false on the code: a collection of one particle that
survives integration ends the step with 1000 particles, not 1001, because
the scheduler drops the trailing partial chunk (it only dispatches
floor(length / TASK_SIZE) full chunks). -/
theorem c1_population_counterexample :
    (∀ p ∈ [pz], surviveTest eF0 0 (integrate eF0 nrm1 0 p) = true) ∧
    (update_particles gen0 eF0 nrm1 sg0 1 0 [pz]).length ≠
      [pz].length + PARTICLES_PER_FRAME := by
  constructor
  · intro p hp
    rw [List.mem_singleton] at hp
    subst hp
    exact surviveTest_integrate_pz 0
  · have hb : (batchSurvivors eF0 nrm1 0 [pz]).length = 0 := by
      unfold batchSurvivors
      have : [pz].length / TASK_SIZE = 0 := by simp [TASK_SIZE]
      rw [this]
      rfl
    unfold update_particles
    rw [List.length_append, hb, List.length_map, List.length_range]
    simp [PARTICLES_PER_FRAME]

/-- C1 amended: when additionally TASK_SIZE divides the population size (so
that no trailing partial chunk is dropped) and no particle meets a
retirement condition, one update_particles step grows the population by
exactly PARTICLES_PER_FRAME. -/
theorem c1_population_amended (gen : ℕ → ℕ → ℚ) (expv : ℕ → ℚ)
    (nrm : CQ → ℚ) (sg : ℚ → ℚ) (L t : ℕ) (ps : List Particle)
    (hdvd : TASK_SIZE ∣ ps.length)
    (hall : ∀ p ∈ ps, surviveTest expv t (integrate expv nrm t p) = true) :
    (update_particles gen expv nrm sg L t ps).length =
      ps.length + PARTICLES_PER_FRAME := by
  unfold update_particles
  rw [List.length_append, batchSurvivors_length expv nrm t ps hall,
    Nat.div_mul_cancel hdvd, List.length_map, List.length_range]

/-- Witness for the amended C1 at a concrete full-chunk collection. -/
theorem c1_population_amended_witness :
    (update_particles gen0 eF0 nrm1 sg0 1 0 (List.replicate TASK_SIZE pz)).length =
      (List.replicate TASK_SIZE pz).length + PARTICLES_PER_FRAME :=
  c1_population_amended gen0 eF0 nrm1 sg0 1 0 (List.replicate TASK_SIZE pz)
    (by rw [List.length_replicate])
    (fun p hp => by rw [List.eq_of_mem_replicate hp]; exact surviveTest_integrate_pz 0)

/-- C2: two calls of the particle seeder with identical frame index and
slot index return bit-identical particles.  In this embedding the seeder
is the pure function Particle.new of the frame index, the slot index and
the fixed PRNG stream, so no call order or thread can influence the
result. -/
theorem c2_seeder_deterministic (gen : ℕ → ℕ → ℚ) (expv : ℕ → ℚ)
    (nrm : CQ → ℚ) (sg : ℚ → ℚ) (L t1 n1 t2 n2 : ℕ)
    (ht : t1 = t2) (hn : n1 = n2) :
    Particle.new gen expv nrm sg L t1 n1 = Particle.new gen expv nrm sg L t2 n2 := by
  subst ht
  subst hn
  rfl

/-- Witness for C2 at frame 2, slot 3. -/
theorem c2_seeder_deterministic_witness :
    Particle.new gen0 eF0 nrm1 sg0 1 2 3 = Particle.new gen0 eF0 nrm1 sg0 1 2 3 :=
  c2_seeder_deterministic gen0 eF0 nrm1 sg0 1 2 3 2 3 rfl rfl

/-- C3: with loop length L greater than 1, the seed key of frame t + L
equals the seed key of frame t for every slot, and therefore the newcomer
particle seeded at frame t + L is identical to the one seeded at frame t. -/
theorem c3_loop_periodicity (gen : ℕ → ℕ → ℚ) (expv : ℕ → ℚ) (nrm : CQ → ℚ)
    (sg : ℚ → ℚ) (L t n : ℕ) (hL : 1 < L) :
    seedKey L (t + L) n = seedKey L t n ∧
    Particle.new gen expv nrm sg L (t + L) n = Particle.new gen expv nrm sg L t n := by
  have hmod : (t + L) % L = t % L := Nat.add_mod_right t L
  refine ⟨?_, ?_⟩
  · simp only [seedKey, if_pos hL, hmod]
  · simp only [Particle.new, seedKey, if_pos hL, hmod]

/-- Witness for C3 with loop length 2 at frame 3, slot 5. -/
theorem c3_loop_periodicity_witness :
    seedKey 2 (3 + 2) 5 = seedKey 2 3 5 ∧
    Particle.new gen0 eF0 nrm1 sg0 2 (3 + 2) 5 = Particle.new gen0 eF0 nrm1 sg0 2 3 5 :=
  c3_loop_periodicity gen0 eF0 nrm1 sg0 2 3 5 (by norm_num)

/-- C4: every particle of the surviving output of one scheduler pass has
age at most its lifetime: the retirement test drops any integrated
particle whose age reached its lifetime. -/
theorem c4_survivor_age_le_lifetime (expv : ℕ → ℚ) (nrm : CQ → ℚ) (t : ℕ)
    (ps : List Particle) (q : Particle)
    (hq : q ∈ batchSurvivors expv nrm t ps) : q.age ≤ q.lifetime := by
  unfold batchSurvivors at hq
  rw [List.mem_flatMap] at hq
  obtain ⟨k, -, hk⟩ := hq
  unfold taskResult at hk
  rw [List.mem_filter] at hk
  have hs := hk.2
  simp only [surviveTest, Bool.not_eq_true', Bool.or_eq_false_iff,
    decide_eq_false_iff_not] at hs
  exact le_of_lt (lt_of_not_le hs.1)

/-- Witness for C4: the integrated origin particle is a survivor of a
512-particle collection and its age is below its lifetime. -/
theorem c4_survivor_age_le_lifetime_witness :
    (integrate eF0 nrm1 0 pz).age ≤ (integrate eF0 nrm1 0 pz).lifetime :=
  c4_survivor_age_le_lifetime eF0 nrm1 0 (List.replicate TASK_SIZE pz) _
    (by rw [batchSurvivors_replicate_full eF0 nrm1 0 pz (surviveTest_integrate_pz 0)]
        exact List.mem_replicate.mpr ⟨by norm_num [TASK_SIZE], rfl⟩)

/-- C5: when the squared field magnitude d at the post-substep position is
not finite, the retirement test fires and the particle is dropped: a NaN d
fails every comparison but is caught by the is_nan disjunct, and an
infinite d is caught by the divergence comparison (negative infinity is
impossible for a sum of squares). -/
theorem c5_nonfinite_d_retires (vre vim : FVal) (age lifetime : ℚ)
    (h : (norm_sqrF vre vim).isFinite = false) :
    surviveTestF age lifetime (norm_sqrF vre vim) = false := by
  cases vre <;> cases vim <;>
    simp_all [norm_sqrF, FVal.mul, FVal.add, FVal.isFinite, FVal.isNan,
      FVal.fge, surviveTestF]

/-- Witness for C5 at a NaN field component. -/
theorem c5_nonfinite_d_retires_witness :
    surviveTestF 0 1 (norm_sqrF FVal.nan (FVal.fin 0)) = false :=
  c5_nonfinite_d_retires FVal.nan (FVal.fin 0) 0 1 rfl

/-- C6 amended: the lifetime drawn by the seeder is nonnegative and
strictly below PARTICLE_LIFETIME whenever the unit draw lies in [0, 1),
the range of the f32 Standard distribution; it is zero (not strictly
positive) exactly when the draw is zero. -/
theorem c6_lifetime_range (gen : ℕ → ℕ → ℚ) (expv : ℕ → ℚ) (nrm : CQ → ℚ)
    (sg : ℚ → ℚ) (L t n : ℕ)
    (h0 : 0 ≤ gen (seedKey L t n) 5) (h1 : gen (seedKey L t n) 5 < 1) :
    0 ≤ (Particle.new gen expv nrm sg L t n).lifetime ∧
    (Particle.new gen expv nrm sg L t n).lifetime < PARTICLE_LIFETIME := by
  have hl : (Particle.new gen expv nrm sg L t n).lifetime
      = gen (seedKey L t n) 5 * PARTICLE_LIFETIME := rfl
  rw [hl]
  constructor
  · exact mul_nonneg h0 (by norm_num [PARTICLE_LIFETIME])
  · have hpos : (0 : ℚ) < PARTICLE_LIFETIME := by norm_num [PARTICLE_LIFETIME]
    calc gen (seedKey L t n) 5 * PARTICLE_LIFETIME
        < 1 * PARTICLE_LIFETIME := mul_lt_mul_of_pos_right h1 hpos
      _ = PARTICLE_LIFETIME := one_mul _

/-- Witness for the amended C6 at frame 7, slot 9. -/
theorem c6_lifetime_range_witness :
    0 ≤ (Particle.new gen0 eF0 nrm1 sg0 1 7 9).lifetime ∧
    (Particle.new gen0 eF0 nrm1 sg0 1 7 9).lifetime < PARTICLE_LIFETIME :=
  c6_lifetime_range gen0 eF0 nrm1 sg0 1 7 9 (by norm_num [gen0]) (by norm_num [gen0])

/-- C6 as stated is false on the code: the unit draw may be zero (the f32
Standard distribution samples [0, 1)), and a zero draw gives lifetime
exactly zero, which is not strictly positive. -/
theorem c6_lifetime_counterexample :
    (0 ≤ gen0 (seedKey 1 0 0) 5 ∧ gen0 (seedKey 1 0 0) 5 < 1) ∧
    ¬ 0 < (Particle.new gen0 eF0 nrm1 sg0 1 0 0).lifetime := by
  refine ⟨⟨by norm_num [gen0], by norm_num [gen0]⟩, ?_⟩
  have hl : (Particle.new gen0 eF0 nrm1 sg0 1 0 0).lifetime = 0 := by
    have h2 : (Particle.new gen0 eF0 nrm1 sg0 1 0 0).lifetime
        = gen0 (seedKey 1 0 0) 5 * PARTICLE_LIFETIME := rfl
    rw [h2]
    norm_num [gen0]
  rw [hl]
  exact lt_irrefl 0

/-- C7: one integration step sets the updated flag, increments age by
exactly one, and leaves the position equal to the SUBSTEPS-fold iterate of
the substep map that evaluates the field at the current position, divides
the value by its norm and advances by that direction times
EPSILON / SUBSTEPS. -/
theorem c7_integrator_shape (expv : ℕ → ℚ) (nrm : CQ → ℚ) (t : ℕ) (p : Particle) :
    integrate expv nrm t p =
      { color := p.color
        position := (fun pos : CQ =>
            pos + ((f expv t pos).divScalar (nrm (f expv t pos))).smul
              (EPSILON / (SUBSTEPS : ℚ)))^[SUBSTEPS] p.position
        old_position := p.old_position
        lifetime := p.lifetime
        age := p.age + 1
        updated := true } := by
  rfl

/-- C8: every survivor of one scheduler pass is the integrated image of an
input particle, and integration leaves both old_position and color
untouched. -/
theorem c8_integrator_preserves (expv : ℕ → ℚ) (nrm : CQ → ℚ) (t : ℕ)
    (ps : List Particle) (q : Particle)
    (hq : q ∈ batchSurvivors expv nrm t ps) :
    ∃ p ∈ ps, q.old_position = p.old_position ∧ q.color = p.color := by
  unfold batchSurvivors at hq
  rw [List.mem_flatMap] at hq
  obtain ⟨k, -, hk⟩ := hq
  unfold taskResult at hk
  rw [List.mem_filter] at hk
  have hm := hk.1
  rw [List.mem_map] at hm
  obtain ⟨p, hp, rfl⟩ := hm
  exact ⟨p, List.drop_subset _ _ (List.take_subset _ _ hp), rfl, rfl⟩

/-- Witness for C8: a survivor of a concrete 512-particle collection keeps
the old_position and color of its source particle. -/
theorem c8_integrator_preserves_witness :
    ∃ p ∈ List.replicate TASK_SIZE pz,
      (integrate eF0 nrm1 0 pz).old_position = p.old_position ∧
      (integrate eF0 nrm1 0 pz).color = p.color :=
  c8_integrator_preserves eF0 nrm1 0 (List.replicate TASK_SIZE pz) _
    (by rw [batchSurvivors_replicate_full eF0 nrm1 0 pz (surviveTest_integrate_pz 0)]
        exact List.mem_replicate.mpr ⟨by norm_num [TASK_SIZE], rfl⟩)

/-- C9: with loop mode active (L greater than 1) and saving enabled, a
pixel buffer is sent to the frame sink at frame t exactly when
L ≤ t < 2L, and the driving process quits exactly when t passed 2L. -/
theorem c9_sink_gating (L t : ℕ) (hL : 1 < L) :
    (should_send true L t = true ↔ L ≤ t ∧ t < 2 * L) ∧
    (should_quit L t = true ↔ 2 * L < t) := by
  constructor
  · unfold should_send
    rw [if_neg (by omega)]
    simp
  · unfold should_quit
    simp [hL]

/-- Witness for C9 with loop length 2 at frame 3. -/
theorem c9_sink_gating_witness :
    (should_send true 2 3 = true ↔ 2 ≤ 3 ∧ 3 < 2 * 2) ∧
    (should_quit 2 3 = true ↔ 2 * 2 < 3) :=
  c9_sink_gating 2 3 (by norm_num)

/-- C10: every particle returned by the seeder has a false updated flag
and an old_position bit-identical to its position, and the renderer skips
particles with a false updated flag, so a newcomer is never drawn in the
frame in which it was spawned. -/
theorem c10_newcomer_invisible (gen : ℕ → ℕ → ℚ) (expv : ℕ → ℚ)
    (nrm : CQ → ℚ) (sg : ℚ → ℚ) (L t n : ℕ) :
    (Particle.new gen expv nrm sg L t n).updated = false ∧
    (Particle.new gen expv nrm sg L t n).old_position
      = (Particle.new gen expv nrm sg L t n).position ∧
    ∀ ps : List Particle, Particle.new gen expv nrm sg L t n ∉ drawn ps := by
  refine ⟨rfl, rfl, ?_⟩
  intro ps hmem
  unfold drawn at hmem
  rw [List.mem_filter] at hmem
  have h2 : (Particle.new gen expv nrm sg L t n).updated = true := hmem.2
  rw [show (Particle.new gen expv nrm sg L t n).updated = false from rfl] at h2
  exact Bool.false_ne_true h2
